import Mathlib

/-!
Shallow embedding of the notice-board service (Express/Mongoose app):
the Broadcast model (`src/Broadcast.js`), the broadcast routes
(`src/unnamed/part_000`) and the auth routes (`src/routes/routes/auth.js`).

Timestamps are modelled as `Int`; Mongo ObjectIds as `Nat`; the persistent
store as a `List` of records.  Each Express route handler becomes a pure
function from (store, request data, current time) to (result, new store).
-/

/-- Error kinds surfaced by the handlers, per the repository's taxonomy. -/
inductive ApiError where
  | notFound
  | forbidden
  | validationError
  | authError
  | conflictError
  deriving DecidableEq, Repr

/-- The HTTP-level response envelope a handler sends: status code, the
`success` flag and the `message` field of the JSON body. -/
structure HttpResponse where
  status : Nat
  success : Bool
  message : String
  deriving DecidableEq, Repr

/-- A broadcast document, following `broadcastSchema` in `src/Broadcast.js`.
`expiryDate = none` models a null expiry (never expires); `createdAt` is the
timestamp added by mongoose. -/
structure Broadcast where
  id : Nat
  title : String
  message : String
  urgency : String
  btype : String
  tags : List String
  createdBy : Nat
  expiryDate : Option Int
  status : String
  views : Int
  priority : Int
  createdAt : Int
  deriving DecidableEq, Repr

/-- The `pre('save')` hook of `broadcastSchema`: if `expiryDate` is set and
strictly before the current time, force `status` to `"expired"`. -/
def preSave (now : Int) (b : Broadcast) : Broadcast :=
  match b.expiryDate with
  | some d => if d < now then { b with status := "expired" } else b
  | none => b

/-- The schema's `trim` setter (surrounding-whitespace removal), written
over the underlying character list so that concrete instances evaluate by
kernel reduction. -/
def trimString (s : String) : String :=
  ⟨((s.data.dropWhile Char.isWhitespace).reverse.dropWhile
      Char.isWhitespace).reverse⟩

/-- The urgency enum of `broadcastSchema`. -/
def urgencyEnum : List String := ["low", "medium", "high"]

/-- The type enum of `broadcastSchema`. -/
def typeEnum : List String :=
  ["announcement", "alert", "maintenance", "update", "news", "meeting"]

/-- The status enum of `broadcastSchema`. -/
def statusEnum : List String := ["active", "expired", "archived"]

/-- Mongoose document validation for `broadcastSchema`: `title` and `message`
required (non-empty) with max lengths, and the three enum domains.  Runs on
every `save()`, before the user-defined `pre('save')` hook. -/
def validBroadcast (b : Broadcast) : Bool :=
  b.title ≠ "" && b.title.length ≤ 200 &&
  b.message ≠ "" && b.message.length ≤ 5000 &&
  urgencyEnum.contains b.urgency &&
  typeEnum.contains b.btype &&
  statusEnum.contains b.status

/-- `Broadcast.findById`: first stored record with the given id. -/
def findById (store : List Broadcast) (id : Nat) : Option Broadcast :=
  store.find? (fun b => b.id == id)

/-- Persisting a saved document back into the store (in-place update of the
record with that id). -/
def replaceById (store : List Broadcast) (id : Nat) (b : Broadcast) :
    List Broadcast :=
  store.map (fun x => if x.id == id then b else x)

/-- `document.save()`: mongoose validation, then the expiry `pre('save')`
hook, then persistence of the resulting document (returned here; the caller
threads it into the store). -/
def saveBroadcast (now : Int) (b : Broadcast) : Except ApiError Broadcast :=
  if validBroadcast b then Except.ok (preSave now b) else Except.error ApiError.validationError

/-- The update payload of `PUT /:id`: which keys are present in `req.body`.
A present key overwrites the stored field verbatim (`broadcast[key] = updates[key]`);
for `expiryDate` the payload value may itself be null, hence `Option (Option Int)`. -/
structure UpdateFields where
  title : Option String := none
  message : Option String := none
  urgency : Option String := none
  btype : Option String := none
  tags : Option (List String) := none
  expiryDate : Option (Option Int) := none
  status : Option String := none
  views : Option Int := none
  priority : Option Int := none
  deriving DecidableEq, Repr

/-- The unrestricted field-by-field overwrite of `PUT /:id`
(`Object.keys(updates).forEach(key => broadcast[key] = updates[key])`).
Assignments to `title`/`message`/`tags` pass through the schema's `trim`
setter. -/
def applyUpdates (b : Broadcast) (u : UpdateFields) : Broadcast :=
  { b with
    title := match u.title with | some t => trimString t | none => b.title
    message := match u.message with | some m => trimString m | none => b.message
    urgency := u.urgency.getD b.urgency
    btype := u.btype.getD b.btype
    tags := match u.tags with | some ts => ts.map trimString | none => b.tags
    expiryDate := u.expiryDate.getD b.expiryDate
    status := u.status.getD b.status
    views := u.views.getD b.views
    priority := u.priority.getD b.priority }

/-- `GET /:id`: 404 when absent; otherwise increment `views` by 1 and
`save()` (which re-runs the expiry hook), persisting the result. -/
def getById (store : List Broadcast) (id : Nat) (now : Int) :
    Except ApiError Broadcast × List Broadcast :=
  match findById store id with
  | none => (Except.error ApiError.notFound, store)
  | some b =>
      let b' := preSave now { b with views := b.views + 1 }
      (Except.ok b', replaceById store id b')

/-- `PUT /:id`: 404 when absent; 403 unless the caller owns the record or is
admin; otherwise apply the unrestricted overwrite and `save()`. -/
def updateBroadcast (store : List Broadcast) (id : Nat) (userId : Nat)
    (role : String) (u : UpdateFields) (now : Int) :
    Except ApiError Broadcast × List Broadcast :=
  match findById store id with
  | none => (Except.error ApiError.notFound, store)
  | some b =>
      if b.createdBy != userId && role != "admin" then
        (Except.error ApiError.forbidden, store)
      else
        match saveBroadcast now (applyUpdates b u) with
        | Except.ok b' => (Except.ok b', replaceById store id b')
        | Except.error e => (Except.error e, store)

/-- `DELETE /:id`: 404 when absent; 403 unless owner or admin; otherwise
permanent removal. -/
def deleteBroadcast (store : List Broadcast) (id : Nat) (userId : Nat)
    (role : String) : Except ApiError Unit × List Broadcast :=
  match findById store id with
  | none => (Except.error ApiError.notFound, store)
  | some b =>
      if b.createdBy != userId && role != "admin" then
        (Except.error ApiError.forbidden, store)
      else
        (Except.ok (), store.filter (fun x => !(x.id == id)))

/-- The creation payload of `POST /`: the keys destructured from `req.body`
(`title`, `message`, `urgency`, `type`, `tags`, `expiryDate`); each may be
absent. -/
structure CreateFields where
  title : Option String := none
  message : Option String := none
  urgency : Option String := none
  btype : Option String := none
  tags : Option (List String) := none
  expiryDate : Option (Option Int) := none
  deriving DecidableEq, Repr

/-- Document construction in `POST /`: schema defaults for absent fields
(`urgency = 'medium'`, `type = 'announcement'`, `status = 'active'`,
`views = 0`, `priority = 0`, `expiryDate = null`), trim setters on
`title`/`message`/`tags`, `createdBy` from the authenticated identity.
An absent required string is modelled as `""`, which the required check
rejects exactly like an absent value. -/
def newBroadcast (f : CreateFields) (userId : Nat) (newId : Nat) (now : Int) :
    Broadcast :=
  { id := newId
    title := trimString (f.title.getD "")
    message := trimString (f.message.getD "")
    urgency := f.urgency.getD "medium"
    btype := f.btype.getD "announcement"
    tags := (f.tags.getD []).map trimString
    createdBy := userId
    expiryDate := f.expiryDate.getD none
    status := "active"
    views := 0
    priority := 0
    createdAt := now }

/-- `POST /` core: build the document and `save()` it; on success append to
the store, on a validation failure persist nothing. -/
def createBroadcast (store : List Broadcast) (f : CreateFields) (userId : Nat)
    (newId : Nat) (now : Int) : Except ApiError Broadcast × List Broadcast :=
  match saveBroadcast now (newBroadcast f userId newId now) with
  | Except.ok b' => (Except.ok b', store ++ [b'])
  | Except.error e => (Except.error e, store)

/-- The full `POST /` route including its catch block: any thrown error
(mongoose validation included) is answered with `500 'Server error'`. -/
def postBroadcastRoute (store : List Broadcast) (f : CreateFields)
    (userId : Nat) (newId : Nat) (now : Int) : HttpResponse × List Broadcast :=
  match createBroadcast store f userId newId now with
  | (Except.ok _, s') =>
      ({ status := 201, success := true, message := "Broadcast created successfully" }, s')
  | (Except.error _, s') =>
      ({ status := 500, success := false, message := "Server error" }, s')

/-- The query parameters of `GET /` as destructured from `req.query`: `none`
models an absent key; a present key carries the raw (possibly empty) string.
`page` and `limit` are modelled as the parsed positive integers the claims
quantify over. -/
structure ListQuery where
  page : Nat := 1
  limit : Nat := 20
  qtype : Option String := none
  urgency : Option String := none
  status : Option String := none
  search : Option String := none
  deriving DecidableEq, Repr

/-- Prefix test on character lists. -/
def charsPrefixOf : List Char → List Char → Bool
  | [], _ => true
  | _ :: _, [] => false
  | a :: as, b :: bs => a == b && charsPrefixOf as bs

/-- Substring containment on character lists: the needle is a prefix of some
suffix of the hay. -/
def charsContains : List Char → List Char → Bool
  | [], needle => charsPrefixOf needle []
  | a :: rest, needle =>
      charsPrefixOf needle (a :: rest) || charsContains rest needle

/-- Substring containment, the effect of a plain-text `$regex` pattern
(written over character lists so concrete instances evaluate by kernel
reduction). -/
def strContains (hay needle : String) : Bool :=
  charsContains hay.data needle.data

/-- Case-insensitive substring containment: the denotation of
`{$regex: needle, $options: 'i'}` when `needle` is a literal pattern, one
with no regex metacharacters. -/
def strContainsCI (hay needle : String) : Bool :=
  strContains ⟨hay.data.map Char.toLower⟩ ⟨needle.data.map Char.toLower⟩

/-- The characters that are metacharacters of the datastore's regex
dialect outside character classes (the two brace characters are written by
codepoint). -/
def regexMetaChars : List Char :=
  ['\\', '^', '$', '.', '|', '?', '*', '+', '(', ')', '[', ']'] ++
  [Char.ofNat 123, Char.ofNat 125]

/-- A literal regex pattern: a term with no regex metacharacters.  On such
terms — and only on such terms — the route's `{$regex: term, $options: 'i'}`
clause denotes case-insensitive substring containment; a term with
metacharacters is interpreted by the datastore as a regex pattern, which
this development does not model. -/
def isLiteralPattern (s : String) : Bool :=
  s.data.all (fun c => !(regexMetaChars.contains c))

/-- The `$or` clause built for a search term, under the literal-pattern
reading of `$regex`: a case-insensitive substring match in `title`, in
`message`, or in some element of `tags`.  Coincides with the route's
behaviour exactly when `isLiteralPattern s` holds. -/
def searchMatch (s : String) (b : Broadcast) : Bool :=
  strContainsCI b.title s || strContainsCI b.message s ||
  b.tags.any (fun t => strContainsCI t s)

/-- The mongo `query` object built by `GET /`, as a predicate on a document.
Each `if (param)` guard is JS string truthiness: an absent or empty-string
parameter adds no clause.  `status` is destructured with default `'active'`
before the truthiness check.  The search clause uses the literal-pattern
reading of `$regex`, so this predicate agrees with the route exactly on
queries whose search term is absent, empty, or metacharacter-free. -/
def matchesFilters (q : ListQuery) (b : Broadcast) : Bool :=
  (match q.qtype with
   | none => true
   | some t => t == "" || b.btype == t) &&
  (match q.urgency with
   | none => true
   | some u => u == "" || b.urgency == u) &&
  (let s := q.status.getD "active"
   s == "" || b.status == s) &&
  (match q.search with
   | none => true
   | some s => s == "" || searchMatch s b)

/-- Insertion step for the default `-createdAt` sort (descending creation
time, stable). -/
def insertByCreatedAtDesc (b : Broadcast) : List Broadcast → List Broadcast
  | [] => [b]
  | x :: xs =>
      if x.createdAt ≥ b.createdAt then x :: insertByCreatedAtDesc b xs
      else b :: x :: xs

/-- The default `.sort('-createdAt')` ordering of the matching records. -/
def sortByCreatedAtDesc (l : List Broadcast) : List Broadcast :=
  l.foldr insertByCreatedAtDesc []

/-- `GET /` core: filter, sort, paginate with
`.skip((page-1)*limit).limit(limit)`, and report
`total = countDocuments(query)` and `pages = Math.ceil(total / limit)`.
Returns (page items, total, pages). -/
def listBroadcasts (store : List Broadcast) (q : ListQuery) :
    List Broadcast × Nat × Nat :=
  let matching := store.filter (matchesFilters q)
  let items := ((sortByCreatedAtDesc matching).drop ((q.page - 1) * q.limit)).take q.limit
  (items, matching.length, (matching.length + q.limit - 1) / q.limit)

/-- A user record, following the User model referenced by
`src/routes/routes/auth.js` (the model file itself is not in the sources;
its fields are those the spec's data model lists). -/
structure User where
  id : Nat
  username : String
  email : String
  password : String
  role : String
  isActive : Bool
  lastLogin : Option Int
  deriving DecidableEq, Repr

/-- Modelled from the spec: the one-way salted password hash of the missing
User model, abstracted as a deterministic tagging function — the login
claims depend only on whether the comparison succeeds. -/
def hashPassword (p : String) : String := "hashed:" ++ p

/-- Modelled from the spec: `user.comparePassword(password)` of the missing
User model — verifies the supplied plaintext against the stored hash. -/
def comparePassword (u : User) (password : String) : Bool :=
  hashPassword password == u.password

/-- Persisting a saved user back into the store. -/
def replaceUserById (users : List User) (id : Nat) (u : User) : List User :=
  users.map (fun x => if x.id == id then u else x)

/-- `POST /login`: look up by email (400 `'Invalid credentials'` when
absent), check the password (same 400 on mismatch), then the active flag
(403 `'Account is deactivated'`), then update `lastLogin` and answer 200. -/
def login (users : List User) (email : String) (password : String)
    (now : Int) : HttpResponse × List User :=
  match users.find? (fun u => u.email == email) with
  | none =>
      ({ status := 400, success := false, message := "Invalid credentials" }, users)
  | some u =>
      if !comparePassword u password then
        ({ status := 400, success := false, message := "Invalid credentials" }, users)
      else if !u.isActive then
        ({ status := 403, success := false, message := "Account is deactivated" }, users)
      else
        ({ status := 200, success := true, message := "Login successful" },
         replaceUserById users u.id { u with lastLogin := some now })

/-! ### Helper lemmas -/

theorem preSave_id (now : Int) (b : Broadcast) : (preSave now b).id = b.id := by
  unfold preSave
  cases h : b.expiryDate with
  | none => rfl
  | some d => by_cases hd : d < now <;> simp [hd]

theorem preSave_views (now : Int) (b : Broadcast) :
    (preSave now b).views = b.views := by
  unfold preSave
  cases h : b.expiryDate with
  | none => rfl
  | some d => by_cases hd : d < now <;> simp [hd]

theorem preSave_expiryDate (now : Int) (b : Broadcast) :
    (preSave now b).expiryDate = b.expiryDate := by
  unfold preSave
  cases h : b.expiryDate with
  | none => exact h
  | some d => by_cases hd : d < now <;> simp [hd, h]

theorem preSave_expired (now : Int) (b : Broadcast) (d : Int)
    (hd : b.expiryDate = some d) (hpast : d < now) :
    preSave now b = { b with status := "expired" } := by
  unfold preSave
  rw [hd]
  simp [hpast]

theorem findById_id_eq (store : List Broadcast) (id : Nat) (b : Broadcast)
    (h : findById store id = some b) : b.id = id := by
  have := List.find?_some h
  simpa using this

theorem findById_replaceById (store : List Broadcast) (id : Nat)
    (b x : Broadcast) (h : findById store id = some b) (hx : x.id = id) :
    findById (replaceById store id x) id = some x := by
  induction store with
  | nil => simp [findById] at h
  | cons e es ih =>
      by_cases he : e.id = id
      · simp [findById, replaceById, he, hx]
      · have h' : findById es id = some b := by
          rw [findById] at h
          rwa [List.find?_cons_of_neg] at h
          simp [he]
        have ih' := ih h'
        simpa [findById, replaceById, he] using ih'

theorem mem_replaceById (store : List Broadcast) (id : Nat) (x y : Broadcast)
    (h : y ∈ replaceById store id x) : y ∈ store ∨ y = x := by
  unfold replaceById at h
  obtain ⟨z, hz, hzy⟩ := List.mem_map.mp h
  by_cases hid : z.id = id
  · right
    simpa [hid] using hzy.symm
  · left
    rw [← hzy]
    simpa [hid] using hz

theorem mem_insertByCreatedAtDesc (b x : Broadcast) (l : List Broadcast) :
    x ∈ insertByCreatedAtDesc b l ↔ x = b ∨ x ∈ l := by
  induction l with
  | nil => simp [insertByCreatedAtDesc]
  | cons e es ih =>
      unfold insertByCreatedAtDesc
      split
      · simp [ih]
        tauto
      · simp

theorem mem_sortByCreatedAtDesc (x : Broadcast) (l : List Broadcast) :
    x ∈ sortByCreatedAtDesc l ↔ x ∈ l := by
  induction l with
  | nil => simp [sortByCreatedAtDesc]
  | cons e es ih =>
      unfold sortByCreatedAtDesc at ih ⊢
      simp [List.foldr, mem_insertByCreatedAtDesc, ih]

theorem saveBroadcast_ok (now : Int) (b b' : Broadcast)
    (h : saveBroadcast now b = Except.ok b') :
    b' = preSave now b ∧ validBroadcast b = true := by
  unfold saveBroadcast at h
  by_cases hval : validBroadcast b = true
  · rw [if_pos hval] at h
    injection h with h'
    exact ⟨h'.symm, hval⟩
  · rw [if_neg hval] at h
    simp at h

theorem updateBroadcast_found (store : List Broadcast) (id userId : Nat)
    (role : String) (u : UpdateFields) (now : Int) (b : Broadcast)
    (hfind : findById store id = some b) :
    updateBroadcast store id userId role u now =
      if b.createdBy != userId && role != "admin" then
        (Except.error ApiError.forbidden, store)
      else
        match saveBroadcast now (applyUpdates b u) with
        | Except.ok b' => (Except.ok b', replaceById store id b')
        | Except.error e => (Except.error e, store) := by
  unfold updateBroadcast
  rw [hfind]

theorem deleteBroadcast_found (store : List Broadcast) (id userId : Nat)
    (role : String) (b : Broadcast)
    (hfind : findById store id = some b) :
    deleteBroadcast store id userId role =
      if b.createdBy != userId && role != "admin" then
        (Except.error ApiError.forbidden, store)
      else
        (Except.ok (), store.filter (fun x => !(x.id == id))) := by
  unfold deleteBroadcast
  rw [hfind]

theorem getById_found (store : List Broadcast) (id : Nat) (now : Int)
    (b : Broadcast) (hfind : findById store id = some b) :
    getById store id now =
      (Except.ok (preSave now { b with views := b.views + 1 }),
       replaceById store id (preSave now { b with views := b.views + 1 })) := by
  unfold getById
  rw [hfind]

theorem updateBroadcast_ok (store : List Broadcast) (id userId : Nat)
    (role : String) (u : UpdateFields) (now : Int) (b' : Broadcast)
    (s' : List Broadcast)
    (h : updateBroadcast store id userId role u now = (Except.ok b', s')) :
    ∃ b, findById store id = some b ∧
      b' = preSave now (applyUpdates b u) ∧ s' = replaceById store id b' := by
  cases hfind : findById store id with
  | none =>
      unfold updateBroadcast at h
      rw [hfind] at h
      have h2 : (Except.error (α := Broadcast) ApiError.notFound, store) =
          (Except.ok b', s') := h
      simp at h2
  | some b =>
      rw [updateBroadcast_found store id userId role u now b hfind] at h
      by_cases hown : (b.createdBy != userId && role != "admin") = true
      · rw [if_pos hown] at h
        simp at h
      · rw [if_neg hown] at h
        cases hsave : saveBroadcast now (applyUpdates b u) with
        | ok b'' =>
            rw [hsave] at h
            have h2 : (Except.ok b'', replaceById store id b'') =
                (Except.ok b', s') := h
            simp only [Prod.mk.injEq, Except.ok.injEq] at h2
            obtain ⟨h1, h3⟩ := h2
            obtain ⟨heq, _⟩ := saveBroadcast_ok now _ _ hsave
            exact ⟨b, rfl, by rw [← h1, heq], by rw [← h3, ← h1]⟩
        | error e =>
            rw [hsave] at h
            have h2 : (Except.error (α := Broadcast) e, store) =
                (Except.ok b', s') := h
            simp at h2

/-! ### C1 -/

/-- C1: whenever a broadcast update succeeds and the updated record's
`expiryDate` (after the caller's fields are applied) is non-null and earlier
than the time of the write, the returned and the persisted record both have
status `"expired"`, whatever `status` value the caller supplied in the
payload (the payload `u`, including its `status` field, is universally
quantified). -/
theorem update_forces_expired_status
    (store : List Broadcast) (id userId : Nat) (role : String)
    (u : UpdateFields) (now : Int) (b' : Broadcast) (s' : List Broadcast)
    (hsucc : updateBroadcast store id userId role u now = (Except.ok b', s'))
    (d : Int) (hd : b'.expiryDate = some d) (hpast : d < now) :
    b'.status = "expired" ∧
    (findById s' id).map Broadcast.status = some "expired" := by
  obtain ⟨b, hfind, hb', hs'⟩ :=
    updateBroadcast_ok store id userId role u now b' s' hsucc
  have hbu : (applyUpdates b u).expiryDate = some d := by
    rw [← preSave_expiryDate now (applyUpdates b u), ← hb']
    exact hd
  have hps := preSave_expired now (applyUpdates b u) d hbu hpast
  have hstatus : b'.status = "expired" := by rw [hb', hps]
  refine ⟨hstatus, ?_⟩
  have hid : b'.id = id := by
    rw [hb', preSave_id]
    exact findById_id_eq store id b hfind
  rw [hs', findById_replaceById store id b b' hfind hid]
  simp [hstatus]

def cb1 : Broadcast :=
  { id := 1, title := "t", message := "m", urgency := "medium",
    btype := "announcement", tags := [], createdBy := 10, expiryDate := none,
    status := "active", views := 0, priority := 0, createdAt := 0 }

def cupd1 : UpdateFields := { status := some "active", expiryDate := some (some 5) }

def cb1' : Broadcast := { cb1 with status := "expired", expiryDate := some 5 }

/-- C1 witness: the owner updates a broadcast, supplying `status = "active"`
together with an already-past `expiryDate`; the persisted status is
`"expired"`. -/
theorem update_forces_expired_status_witness :
    cb1'.status = "expired" ∧
    (findById [cb1'] 1).map Broadcast.status = some "expired" :=
  update_forces_expired_status [cb1] 1 10 "user" cupd1 100 cb1' [cb1']
    (by rfl) 5 (by rfl) (by decide)

/-! ### C2 -/

/-- C2: for an existing broadcast and a caller who is neither the record's
creator nor an admin, both `PUT /:id` and `DELETE /:id` answer
`ForbiddenError` and leave the whole store (hence the record) unchanged. -/
theorem ownership_guard
    (store : List Broadcast) (id userId : Nat) (role : String)
    (u : UpdateFields) (now : Int) (b : Broadcast)
    (hfind : findById store id = some b)
    (howner : b.createdBy ≠ userId) (hrole : role ≠ "admin") :
    updateBroadcast store id userId role u now =
      (Except.error ApiError.forbidden, store) ∧
    deleteBroadcast store id userId role =
      (Except.error ApiError.forbidden, store) := by
  have hcond : (b.createdBy != userId && role != "admin") = true := by
    simp [howner, hrole]
  constructor
  · rw [updateBroadcast_found store id userId role u now b hfind, if_pos hcond]
  · rw [deleteBroadcast_found store id userId role b hfind, if_pos hcond]

/-- C2 witness: a non-owner, non-admin caller is refused on both update and
delete of a concrete broadcast, and the store is unchanged. -/
theorem ownership_guard_witness :
    updateBroadcast [cb1] 1 2 "user" cupd1 100 =
      (Except.error ApiError.forbidden, [cb1]) ∧
    deleteBroadcast [cb1] 1 2 "user" =
      (Except.error ApiError.forbidden, [cb1]) :=
  ownership_guard [cb1] 1 2 "user" cupd1 100 cb1 (by decide) (by decide)
    (by decide)

/-! ### C3 -/

/-- C3: a login whose email is not in the store and a login whose email is
found but whose password does not match the stored hash fail with the very
same response — status 400 and message `"Invalid credentials"` — and leave
the user store untouched, so the two failures are indistinguishable to the
caller. -/
theorem login_invalid_credentials_indistinguishable
    (users : List User) (email password : String) (now : Int)
    (hcase : users.find? (fun u => u.email == email) = none ∨
      ∃ u, users.find? (fun u => u.email == email) = some u ∧
        comparePassword u password = false) :
    login users email password now =
      ({ status := 400, success := false, message := "Invalid credentials" },
       users) := by
  rcases hcase with h | ⟨u, hu, hpw⟩
  · unfold login
    rw [h]
  · unfold login
    rw [hu]
    simp [hpw]

def cu3 : User :=
  { id := 1, username := "alice", email := "alice@example.com",
    password := hashPassword "pw1", role := "user", isActive := true,
    lastLogin := none }

/-- C3 witness: against a store holding one user, a login with an unknown
email and a login with the right email but the wrong password both produce
the identical 400 `"Invalid credentials"` response. -/
theorem login_invalid_credentials_witness :
    login [cu3] "bob@example.com" "pw1" 0 =
      ({ status := 400, success := false, message := "Invalid credentials" },
       [cu3]) ∧
    login [cu3] "alice@example.com" "wrong" 0 =
      ({ status := 400, success := false, message := "Invalid credentials" },
       [cu3]) :=
  ⟨login_invalid_credentials_indistinguishable [cu3] "bob@example.com" "pw1" 0
      (Or.inl (by rfl)),
   login_invalid_credentials_indistinguishable [cu3] "alice@example.com"
      "wrong" 0 (Or.inr ⟨cu3, by rfl, by rfl⟩)⟩

/-! ### C4 -/

/-- C4: on an account with `isActive = false`, a login with the matching
password fails with 403 `"Account is deactivated"`, while a login with a
non-matching password fails with the generic 400 `"Invalid credentials"` —
the inactive-account check runs only after password verification
succeeds. -/
theorem login_deactivated_account
    (users : List User) (email password : String) (now : Int) (u : User)
    (hfind : users.find? (fun x => x.email == email) = some u)
    (hinactive : u.isActive = false) :
    (comparePassword u password = true →
      login users email password now =
        ({ status := 403, success := false,
           message := "Account is deactivated" }, users)) ∧
    (comparePassword u password = false →
      login users email password now =
        ({ status := 400, success := false,
           message := "Invalid credentials" }, users)) := by
  constructor <;> intro hpw <;> unfold login <;> rw [hfind] <;>
    simp [hpw, hinactive]

def cu4 : User :=
  { id := 2, username := "carol", email := "carol@example.com",
    password := hashPassword "pw2", role := "user", isActive := false,
    lastLogin := none }

/-- C4 witness: a concrete deactivated account gets 403 with the correct
password and the generic 400 with a wrong one. -/
theorem login_deactivated_account_witness :
    login [cu4] "carol@example.com" "pw2" 0 =
      ({ status := 403, success := false,
         message := "Account is deactivated" }, [cu4]) ∧
    login [cu4] "carol@example.com" "nope" 0 =
      ({ status := 400, success := false,
         message := "Invalid credentials" }, [cu4]) :=
  ⟨(login_deactivated_account [cu4] "carol@example.com" "pw2" 0 cu4
      (by rfl) (by rfl)).1 (by rfl),
   (login_deactivated_account [cu4] "carol@example.com" "nope" 0 cu4
      (by rfl) (by rfl)).2 (by rfl)⟩

theorem getById_persists (store : List Broadcast) (id : Nat) (now : Int)
    (b : Broadcast) (hfind : findById store id = some b) :
    findById (getById store id now).2 id =
      some (preSave now { b with views := b.views + 1 }) := by
  have hid : (preSave now { b with views := b.views + 1 }).id = id := by
    rw [preSave_id]
    exact findById_id_eq store id b hfind
  rw [getById_found store id now b hfind]
  exact findById_replaceById store id b _ hfind hid

/-! ### C7 -/

/-- C7: `GET /:id` on an absent id answers `NotFoundError` and leaves the
store unchanged; on a present id it returns the record with `views`
incremented by 1 (after the expiry hook), persists exactly that record, and
a second sequential read persists `views` incremented by exactly 2 over the
original value. -/
theorem getById_views_increment (store : List Broadcast) (id : Nat)
    (now : Int) :
    (findById store id = none →
      getById store id now = (Except.error ApiError.notFound, store)) ∧
    (∀ b, findById store id = some b →
      getById store id now =
        (Except.ok (preSave now { b with views := b.views + 1 }),
         replaceById store id (preSave now { b with views := b.views + 1 })) ∧
      (findById (getById store id now).2 id).map Broadcast.views =
        some (b.views + 1) ∧
      (findById (getById (getById store id now).2 id now).2 id).map
          Broadcast.views = some (b.views + 2)) := by
  constructor
  · intro h
    unfold getById
    rw [h]
  · intro b hb
    have h1 := getById_found store id now b hb
    have hf1 := getById_persists store id now b hb
    refine ⟨h1, ?_, ?_⟩
    · rw [hf1]
      simp [preSave_views]
    · have hf2 := getById_persists (getById store id now).2 id now _ hf1
      rw [hf2]
      simp [preSave_views]
      omega

def cb7 : Broadcast :=
  { id := 1, title := "t", message := "m", urgency := "medium",
    btype := "announcement", tags := [], createdBy := 10, expiryDate := none,
    status := "active", views := 7, priority := 0, createdAt := 0 }

/-- C7 witness: reading an absent id fails without touching the store; two
sequential reads of a concrete broadcast with `views = 7` persist
`views = 8` and then `views = 9`. -/
theorem getById_views_increment_witness :
    getById [cb7] 99 5 = (Except.error ApiError.notFound, [cb7]) ∧
    ((findById (getById [cb7] 1 5).2 1).map Broadcast.views = some 8 ∧
     (findById (getById (getById [cb7] 1 5).2 1 5).2 1).map Broadcast.views
       = some 9) :=
  ⟨(getById_views_increment [cb7] 99 5).1 (by rfl),
   ⟨((getById_views_increment [cb7] 1 5).2 cb7 (by rfl)).2.1,
    ((getById_views_increment [cb7] 1 5).2 cb7 (by rfl)).2.2⟩⟩

/-! ### C10 -/

/-- C10: a successful `GET /:id` on a broadcast whose `expiryDate` is
non-null and in the past at read time persists the record with status
`"expired"` — the expiry rule runs on the read path's `save()` too,
whatever the stored status was before the read. -/
theorem getById_persists_expired (store : List Broadcast) (id : Nat)
    (now : Int) (b : Broadcast) (hfind : findById store id = some b)
    (d : Int) (hd : b.expiryDate = some d) (hpast : d < now) :
    (findById (getById store id now).2 id).map Broadcast.status =
      some "expired" := by
  rw [getById_persists store id now b hfind]
  have hde : ({ b with views := b.views + 1 } : Broadcast).expiryDate
      = some d := hd
  rw [preSave_expired now _ d hde hpast]
  rfl

def cb10 : Broadcast :=
  { id := 3, title := "t", message := "m", urgency := "medium",
    btype := "announcement", tags := [], createdBy := 10,
    expiryDate := some 4, status := "archived", views := 0, priority := 0,
    createdAt := 0 }

/-- C10 witness: a read of a concrete broadcast stored as `"archived"` with
a past expiry persists it as `"expired"`. -/
theorem getById_persists_expired_witness :
    (findById (getById [cb10] 3 9).2 3).map Broadcast.status =
      some "expired" :=
  getById_persists_expired [cb10] 3 9 cb10 (by rfl) 4 (by rfl) (by decide)

theorem matches_of_mem_list (store : List Broadcast) (q : ListQuery)
    (b : Broadcast) (hb : b ∈ (listBroadcasts store q).1) :
    matchesFilters q b = true := by
  have hb' : b ∈ ((sortByCreatedAtDesc (store.filter (matchesFilters q))).drop
      ((q.page - 1) * q.limit)).take q.limit := hb
  have hsub : List.Sublist
      (((sortByCreatedAtDesc (store.filter (matchesFilters q))).drop
        ((q.page - 1) * q.limit)).take q.limit)
      (sortByCreatedAtDesc (store.filter (matchesFilters q))) :=
    (List.take_sublist _ _).trans (List.drop_sublist _ _)
  have hmem := hsub.subset hb'
  rw [mem_sortByCreatedAtDesc] at hmem
  exact (List.mem_filter.mp hmem).2

/-! ### C5 -/

/-- C5 (amended): for every list call whose search term is absent, empty,
or a literal pattern (free of regex metacharacters) — the domain on which
the embedding of the route's `{$regex: term, $options: 'i'}` clause as
case-insensitive substring containment coincides with the route — every
returned item satisfies the filters: with `status` unspecified every item
is `"active"`; a filter parameter supplied as a non-empty string is matched
exactly; a non-empty search term implies the case-insensitive substring
match on title, message or some tag; and all supplied clauses hold
conjointly.  (A parameter supplied as the empty string is falsy in the
route's `if (param)` guards and adds no clause; a search term containing
regex metacharacters is interpreted by the datastore as a regex pattern and
is outside this claim.) -/
theorem list_filters_sound (store : List Broadcast) (q : ListQuery)
    (b : Broadcast) (hb : b ∈ (listBroadcasts store q).1)
    (_hdom : q.search = none ∨
      ∃ s, q.search = some s ∧ (s = "" ∨ isLiteralPattern s = true)) :
    (q.status = none → b.status = "active") ∧
    (∀ s, q.status = some s → s ≠ "" → b.status = s) ∧
    (∀ t, q.qtype = some t → t ≠ "" → b.btype = t) ∧
    (∀ u, q.urgency = some u → u ≠ "" → b.urgency = u) ∧
    (∀ s, q.search = some s → s ≠ "" → searchMatch s b = true) := by
  have hm := matches_of_mem_list store q b hb
  unfold matchesFilters at hm
  simp only [Bool.and_eq_true] at hm
  obtain ⟨⟨⟨htype, hurg⟩, hstat⟩, hsearch⟩ := hm
  refine ⟨?_, ?_, ?_, ?_, ?_⟩
  · intro h
    rw [h] at hstat
    simpa using hstat
  · intro s h hne
    rw [h] at hstat
    simp only [Option.getD_some, Bool.or_eq_true, beq_iff_eq] at hstat
    rcases hstat with h1 | h1
    · exact absurd h1 hne
    · exact h1
  · intro t h hne
    rw [h] at htype
    simp only [Bool.or_eq_true, beq_iff_eq] at htype
    rcases htype with h1 | h1
    · exact absurd h1 hne
    · exact h1
  · intro v h hne
    rw [h] at hurg
    simp only [Bool.or_eq_true, beq_iff_eq] at hurg
    rcases hurg with h1 | h1
    · exact absurd h1 hne
    · exact h1
  · intro s h hne
    rw [h] at hsearch
    simp only [Bool.or_eq_true, beq_iff_eq] at hsearch
    rcases hsearch with h1 | h1
    · exact absurd h1 hne
    · exact h1

def cb5 : Broadcast :=
  { id := 1, title := "t", message := "m", urgency := "medium",
    btype := "announcement", tags := [], createdBy := 1, expiryDate := none,
    status := "expired", views := 0, priority := 0, createdAt := 0 }

def cq5 : ListQuery := { status := some "" }

/-- C5 counterexample: with `status` supplied as the empty string the route's
`if (status)` guard is falsy, so the status clause is dropped entirely: the
list call returns a broadcast whose status (`"expired"`) does not match the
supplied value, refuting exact matching for every specified status. -/
theorem list_status_empty_counterexample :
    cq5.status = some "" ∧
    (listBroadcasts [cb5] cq5).1 = [cb5] ∧
    cb5.status ≠ "" := by
  refine ⟨rfl, by rfl, by decide⟩

def cb5w : Broadcast :=
  { cb5 with status := "active", tags := ["maintenance"] }

def cq5w : ListQuery := { search := some "maintenance" }

/-- C5 witness: under the literal search term `"maintenance"`, a returned
concrete item whose title and message do not contain the term but whose
tags do has the default status `"active"` and satisfies the substring
match. -/
theorem list_filters_sound_witness :
    cb5w.status = "active" ∧ searchMatch "maintenance" cb5w = true :=
  ⟨(list_filters_sound [cb5w] cq5w cb5w (by decide)
      (Or.inr ⟨"maintenance", rfl, Or.inr (by decide)⟩)).1 rfl,
   (list_filters_sound [cb5w] cq5w cb5w (by decide)
      (Or.inr ⟨"maintenance", rfl, Or.inr (by decide)⟩)).2.2.2.2
     "maintenance" rfl (by decide)⟩

/-! ### C6 -/

/-- C6: for positive `page` and `limit`, the items of `GET /` are exactly
the page-th window — elements `(page-1)*limit` through `page*limit - 1` — of
the sorted matching records, of length at most `limit`; the reported total
is the full matching count regardless of pagination; and the reported pages
is the ceiling of total over limit (stated via `⌈/⌉` together with its
Galois characterisation as the least sufficient page count). -/
theorem list_pagination_windows (store : List Broadcast) (q : ListQuery)
    (_hp : 1 ≤ q.page) (hl : 1 ≤ q.limit) :
    (listBroadcasts store q).1 =
      ((sortByCreatedAtDesc (store.filter (matchesFilters q))).drop
        ((q.page - 1) * q.limit)).take q.limit ∧
    (listBroadcasts store q).1.length ≤ q.limit ∧
    (listBroadcasts store q).2.1 = (store.filter (matchesFilters q)).length ∧
    (listBroadcasts store q).2.2 =
      (store.filter (matchesFilters q)).length ⌈/⌉ q.limit ∧
    (∀ k : Nat, (listBroadcasts store q).2.2 ≤ k ↔
      (store.filter (matchesFilters q)).length ≤ q.limit * k) := by
  have hceil : (listBroadcasts store q).2.2 =
      (store.filter (matchesFilters q)).length ⌈/⌉ q.limit := by
    rw [Nat.ceilDiv_eq_add_pred_div]
    rfl
  refine ⟨rfl, List.length_take_le _ _, rfl, hceil, ?_⟩
  intro k
  rw [hceil]
  exact ceilDiv_le_iff_le_mul hl

def mkRecord (i : Nat) : Broadcast :=
  { id := i, title := "t", message := "m", urgency := "medium",
    btype := "announcement", tags := [], createdBy := 1, expiryDate := none,
    status := "active", views := 0, priority := 0, createdAt := (i : Int) }

def store45 : List Broadcast := (List.range 45).map mkRecord

/-- C6 witness: over 45 matching broadcasts with `limit = 20`, page 1
returns 20 items with `pages = 3`, page 3 returns 5 items with `pages = 3`,
`total = 45` on both, and the window bound of the theorem holds at page 3. -/
theorem list_pagination_windows_witness :
    ((listBroadcasts store45 { page := 1, limit := 20 }).1.length = 20 ∧
     (listBroadcasts store45 { page := 1, limit := 20 }).2.1 = 45 ∧
     (listBroadcasts store45 { page := 1, limit := 20 }).2.2 = 3 ∧
     (listBroadcasts store45 { page := 3, limit := 20 }).1.length = 5 ∧
     (listBroadcasts store45 { page := 3, limit := 20 }).2.1 = 45 ∧
     (listBroadcasts store45 { page := 3, limit := 20 }).2.2 = 3) ∧
    (listBroadcasts store45 { page := 3, limit := 20 }).1.length ≤ 20 :=
  ⟨⟨by rfl, by rfl, by rfl, by rfl, by rfl, by rfl⟩,
   (list_pagination_windows store45 { page := 3, limit := 20 }
      (by decide) (by decide)).2.1⟩

/-! ### C8 -/

/-- C8 (amended): a create whose payload misses `title` or `message`, or
carries an `urgency` or `type` outside the schema enums, fails mongoose
validation and persists nothing — but the route's catch-all surfaces it to
the HTTP layer as the generic `500 'Server error'` response, not a
400-class response. -/
theorem create_invalid_rejected (store : List Broadcast) (f : CreateFields)
    (userId newId : Nat) (now : Int)
    (hbad : trimString (f.title.getD "") = "" ∨
      trimString (f.message.getD "") = "" ∨
      urgencyEnum.contains (f.urgency.getD "medium") = false ∨
      typeEnum.contains (f.btype.getD "announcement") = false) :
    createBroadcast store f userId newId now =
      (Except.error ApiError.validationError, store) ∧
    postBroadcastRoute store f userId newId now =
      ({ status := 500, success := false, message := "Server error" },
       store) := by
  have hval : validBroadcast (newBroadcast f userId newId now) = false := by
    by_cases hv : validBroadcast (newBroadcast f userId newId now) = true
    · exfalso
      unfold validBroadcast newBroadcast at hv
      simp only [Bool.and_eq_true, decide_eq_true_eq] at hv
      obtain ⟨⟨⟨⟨⟨⟨ht, _⟩, hm⟩, _⟩, hu⟩, hb⟩, _⟩ := hv
      rcases hbad with h | h | h | h
      · exact ht h
      · exact hm h
      · rw [h] at hu
        exact Bool.noConfusion hu
      · rw [h] at hb
        exact Bool.noConfusion hb
    · simpa using hv
  have hcreate : createBroadcast store f userId newId now =
      (Except.error ApiError.validationError, store) := by
    unfold createBroadcast saveBroadcast
    rw [if_neg (by simp [hval])]
  refine ⟨hcreate, ?_⟩
  unfold postBroadcastRoute
  rw [hcreate]

def cf8 : CreateFields := { message := some "m" }

/-- C8 counterexample: a create with `title` missing is answered with status
500 (`'Server error'`), which is not a 400-class response, and nothing is
persisted — refuting the claim's 400-class surfacing. -/
theorem create_validation_surfaced_500_counterexample :
    postBroadcastRoute [] cf8 1 1 0 =
      ({ status := 500, success := false, message := "Server error" }, []) ∧
    ¬ (postBroadcastRoute [] cf8 1 1 0).1.status < 500 := by
  refine ⟨by rfl, by decide⟩

/-- C8 witness: the amended theorem applied to the concrete title-less
payload. -/
theorem create_invalid_rejected_witness :
    createBroadcast [] cf8 1 1 0 =
      (Except.error ApiError.validationError, []) ∧
    postBroadcastRoute [] cf8 1 1 0 =
      ({ status := 500, success := false, message := "Server error" }, []) :=
  create_invalid_rejected [] cf8 1 1 0 (Or.inl (by rfl))

/-! ### C9 -/

/-- All stored view counters are non-negative. -/
def viewsNonneg (store : List Broadcast) : Prop :=
  ∀ b ∈ store, 0 ≤ b.views

/-- C9 (amended): starting from a store whose view counters are all
non-negative, create and read preserve non-negativity, and update preserves
it provided the payload does not supply `views` or supplies a non-negative
value — but not unconditionally: the unrestricted overwrite lets an update
payload set `views` to a negative integer (see the counterexample). -/
theorem views_nonneg_preserved (store : List Broadcast)
    (h : viewsNonneg store) :
    (∀ f userId newId now,
      viewsNonneg (createBroadcast store f userId newId now).2) ∧
    (∀ id now, viewsNonneg (getById store id now).2) ∧
    (∀ id userId role u now,
      u.views = none ∨ (∃ v, u.views = some v ∧ 0 ≤ v) →
      viewsNonneg (updateBroadcast store id userId role u now).2) := by
  refine ⟨?_, ?_, ?_⟩
  · intro f userId newId now x hx
    unfold createBroadcast at hx
    cases hsave : saveBroadcast now (newBroadcast f userId newId now) with
    | ok b' =>
        rw [hsave] at hx
        have hx2 : x ∈ store ++ [b'] := hx
        rcases List.mem_append.mp hx2 with hx3 | hx3
        · exact h x hx3
        · have hxb : x = b' := by simpa using hx3
          subst hxb
          obtain ⟨heq, _⟩ := saveBroadcast_ok now _ _ hsave
          rw [heq, preSave_views]
          exact le_refl 0
    | error e =>
        rw [hsave] at hx
        have hx2 : x ∈ store := hx
        exact h x hx2
  · intro id now x hx
    cases hfind : findById store id with
    | none =>
        unfold getById at hx
        rw [hfind] at hx
        have hx2 : x ∈ store := hx
        exact h x hx2
    | some b =>
        rw [getById_found store id now b hfind] at hx
        have hx2 : x ∈ replaceById store id
            (preSave now { b with views := b.views + 1 }) := hx
        rcases mem_replaceById store id _ x hx2 with hx3 | hx3
        · exact h x hx3
        · subst hx3
          rw [preSave_views]
          have hbmem : b ∈ store := List.mem_of_find?_eq_some hfind
          have hbv := h b hbmem
          show (0 : Int) ≤ b.views + 1
          omega
  · intro id userId role u now hu x hx
    cases hfind : findById store id with
    | none =>
        unfold updateBroadcast at hx
        rw [hfind] at hx
        have hx2 : x ∈ store := hx
        exact h x hx2
    | some b =>
        rw [updateBroadcast_found store id userId role u now b hfind] at hx
        by_cases hown : (b.createdBy != userId && role != "admin") = true
        · rw [if_pos hown] at hx
          have hx2 : x ∈ store := hx
          exact h x hx2
        · rw [if_neg hown] at hx
          cases hsave : saveBroadcast now (applyUpdates b u) with
          | ok b' =>
              rw [hsave] at hx
              have hx2 : x ∈ replaceById store id b' := hx
              rcases mem_replaceById store id b' x hx2 with hx3 | hx3
              · exact h x hx3
              · subst hx3
                obtain ⟨heq, _⟩ := saveBroadcast_ok now _ _ hsave
                rw [heq, preSave_views]
                have hbmem : b ∈ store := List.mem_of_find?_eq_some hfind
                have hbv := h b hbmem
                show (0 : Int) ≤ u.views.getD b.views
                rcases hu with hun | ⟨v, hv, hvn⟩
                · rw [hun]
                  simpa using hbv
                · rw [hv]
                  simpa using hvn
          | error e =>
              rw [hsave] at hx
              have hx2 : x ∈ store := hx
              exact h x hx2

def cb9 : Broadcast :=
  { id := 1, title := "t", message := "m", urgency := "medium",
    btype := "announcement", tags := [], createdBy := 10, expiryDate := none,
    status := "active", views := 0, priority := 0, createdAt := 0 }

/-- C9 counterexample: the owner updates a concrete broadcast supplying
`views = -5`; the unrestricted overwrite persists the negative counter,
refuting the claim that no operation can make stored `views` negative. -/
theorem update_negative_views_counterexample :
    (findById (updateBroadcast [cb9] 1 10 "user"
        { views := some (-5) } 0).2 1).map Broadcast.views = some (-5) ∧
    (-5 : Int) < 0 :=
  ⟨by rfl, by decide⟩

def cb9r : Broadcast := { cb9 with views := 1 }

/-- C9 witness: after a read of a concrete broadcast, the persisted record's
counter is still non-negative. -/
theorem views_nonneg_preserved_witness :
    0 ≤ cb9r.views :=
  (views_nonneg_preserved [cb9]
      (by intro b hb; rw [List.mem_singleton] at hb; subst hb; decide)).2.1
    1 0 cb9r (by decide)
